import Mathlib

/-
Verification of the permissioned pagination and mutation layer
(graphene_django_plus). Shallow embedding of src/connections.py,
src/mutations.py, src/types.py, src/fields.py and src/node.py.
Machine integers are modelled as Int, fallible code as Except,
Django querysets as lists of entities together with the registry of
orderable model fields.
-/

deriving instance DecidableEq for Except

namespace GDP

/-- An actor (the request user). Authentication is an external
collaborator, so a user is just an opaque identifier. -/
abbrev User := Nat

/-- A stored entity: a primary key (None before the row is saved, as in
Django) and a mapping from field name to value. -/
structure Entity where
  id : Option Int
  fields : List (String × Int)
deriving DecidableEq

/-- Association-list lookup used for entity field access. -/
def lookupField (fields : List (String × Int)) (f : String) : Option Int :=
  match fields with
  | [] => none
  | (k, v) :: rest => if k == f then some v else lookupField rest f

/-- getattr(obj, fieldName): the primary key is exposed under the name
id, other fields come from the field mapping. -/
def Entity.get (e : Entity) (f : String) : Int :=
  if f == "id" then (match e.id with | some n => n | none => 0)
  else (lookupField e.fields f).getD 0

/-- A Django queryset at the collaborator boundary: its rows plus the
registry of field names the model allows ordering by. -/
structure QuerySet where
  items : List Entity
  validFields : List String
deriving DecidableEq

/-- An orderBy token: a leading dash denotes descending order
(parse of the external token syntax, e.g. -name). -/
def parseToken (t : String) : String × Bool :=
  match t.data with
  | '-' :: rest => (String.mk rest, true)
  | _ => (t, false)

/-- The bare field name of an orderBy token. -/
def stripToken (t : String) : String := (parseToken t).1

/-- Lexicographic comparison of two entities under an order
specification: first differing field decides, descending fields compare
reversed. -/
def specLe (spec : List (String × Bool)) (a b : Entity) : Bool :=
  match spec with
  | [] => true
  | (f, desc) :: rest =>
    let x := a.get f
    let y := b.get f
    if x == y then specLe rest a b
    else if desc then decide (y < x) else decide (x < y)

/-- Insert into a sorted list (used to embed the collection's ordering
primitive). -/
def insertOrd (le : Entity → Entity → Bool) (a : Entity) : List Entity → List Entity
  | [] => [a]
  | b :: bs => if le a b then a :: b :: bs else b :: insertOrd le a bs

/-- Sort a list of entities by the given comparison (the Collection's
orderBy primitive; the claims only depend on it producing a
rearrangement of its input). -/
def sortBy (le : Entity → Entity → Bool) : List Entity → List Entity
  | [] => []
  | a :: as => insertOrd le a (sortBy le as)

/-- First orderBy token whose bare field name is not in the registry of
orderable fields, if any. -/
def findBadToken (valid : List String) : List String → Option String
  | [] => none
  | t :: ts => if valid.contains (stripToken t) then findBadToken valid ts else some t

/-- Errors surfaced by the list-query pipeline. -/
inductive QErr where
  | invalidOrdering (field : String)
  | missingPageBound
  | invalidPageSize
deriving DecidableEq

/-- qs.order_by(tokens) at the Django ORM boundary
(PermissionedConnectionField.order_queryset, src/connections.py line 38):
a token naming no orderable model field raises FieldError naming that
field before any row is fetched; otherwise the rows are reordered by the
requested specification. -/
def order_queryset (qs : QuerySet) (ordering : List String) : Except QErr QuerySet :=
  match findBadToken qs.validFields ordering with
  | some t => .error (.invalidOrdering (stripToken t))
  | none => .ok { qs with items := sortBy (specLe (ordering.map parseToken)) qs.items }

/-- The per-request permission policy (the Permission base class lives in
permissions.py, which is not under src; predicates are the policy
surface the spec describes). viewable_pred is the row predicate behind
get_viewable, independent from the instance-level can_view. -/
structure Permission where
  viewable_pred : User → Entity → Bool
  can_view : User → Entity → Bool
  can_add : User → Entity → Bool
  can_change : User → Entity → Bool
  can_delete : User → Entity → Bool

/-- Modelled from the spec: permissions.py (the Permission base class and
its get_viewable) is not under src. Spec 4.4: viewable(actor) must be a
strict filter (subset) of the bound Collection, and the repository test
policies implement it as self.queryset.filter(...). -/
def get_viewable (p : Permission) (user : User) (boundItems : List Entity) : List Entity :=
  boundItems.filter (p.viewable_pred user)

/-- The pagination arguments of a list query. Cursors are modelled by
their decoded content: the ordered tuple of field values of the boundary
entity (the base64 wrapping is a transport detail). -/
structure PageArgs where
  first : Option Int
  last : Option Int
  after : Option (List Int)
  before : Option (List Int)
deriving DecidableEq

/-- Keyset predicate: entity strictly after the boundary values under the
order specification (spec 4.3 lexicographic tuple comparison). -/
def keysetAfter (spec : List (String × Bool)) (vals : List Int) (e : Entity) : Bool :=
  match spec, vals with
  | (f, desc) :: rest, v :: vs =>
    let x := e.get f
    if desc then (decide (x < v) || (x == v && keysetAfter rest vs e))
    else (decide (v < x) || (x == v && keysetAfter rest vs e))
  | _, _ => false

/-- Keyset predicate: entity strictly before the boundary values (the
mirror of keysetAfter with inverted comparators). -/
def keysetBefore (spec : List (String × Bool)) (vals : List Int) (e : Entity) : Bool :=
  match spec, vals with
  | (f, desc) :: rest, v :: vs =>
    let x := e.get f
    if desc then (decide (v < x) || (x == v && keysetBefore rest vs e))
    else (decide (x < v) || (x == v && keysetBefore rest vs e))
  | _, _ => false

/-- A page of entities plus the adjacency flags. -/
structure Page where
  items : List Entity
  hasNext : Bool
  hasPrevious : Bool
deriving DecidableEq

/-- The keyset-bounded window of the ordered set: apply the after bound,
then the before bound (both apply when both cursors are supplied). -/
def boundWindow (spec : List (String × Bool)) (items : List Entity) (args : PageArgs) : List Entity :=
  let qs1 := match args.after with | some v => items.filter (keysetAfter spec v) | none => items
  match args.before with | some v => qs1.filter (keysetBefore spec v) | none => qs1

/-- Modelled from the spec: the paginator (CursorPaginator.page of the
cursor_pagination package) is not under src. Spec 3 (PageRequest):
exactly one of first and last must be present, both-absent and
both-present are rejected; negative sizes are InvalidPageSize. Spec 4.3:
keyset-bound the ordered set, fetch limit+1 rows to decide the adjacency
flag, trim to limit; last works on the reversed order and reverses the
result back. -/
def paginatorPage (spec : List (String × Bool)) (items : List Entity) (args : PageArgs) : Except QErr Page :=
  match args.first, args.last with
  | none, none => .error .missingPageBound
  | some _, some _ => .error .missingPageBound
  | some n, none =>
    if n < 0 then .error .invalidPageSize else
    let fetched := (boundWindow spec items args).take (n.toNat + 1)
    .ok { items := fetched.take n.toNat
          hasNext := decide (n.toNat < fetched.length)
          hasPrevious := args.after.isSome }
  | none, some n =>
    if n < 0 then .error .invalidPageSize else
    let fetched := (boundWindow spec items args).reverse.take (n.toNat + 1)
    .ok { items := (fetched.take n.toNat).reverse
          hasNext := args.before.isSome
          hasPrevious := decide (n.toNat < fetched.length) }

/-- paginator.cursor(node): the cursor of an entity is the tuple of its
order-specification field values (decoded form). -/
def cursorFor (spec : List (String × Bool)) (e : Entity) : List Int :=
  spec.map (fun p => e.get p.1)

/-- An edge: an entity paired with its cursor. -/
structure Edge where
  node : Entity
  cursor : List Int
deriving DecidableEq

/-- The connection (page response): edges, page info and the visible
count set by resolve_connection. -/
structure Connection where
  edges : List Edge
  startCursor : Option (List Int)
  endCursor : Option (List Int)
  hasNextPage : Bool
  hasPreviousPage : Bool
  length : Nat
deriving DecidableEq

/-- connection_from_queryset (src/connections.py lines 128 to 150): page
the (already filtered and ordered) rows with the orderBy specification,
attach a cursor to every returned node, and take start and end cursors
and the adjacency flags from the page. -/
def connection_from_queryset (qs : List Entity) (ordering : List String) (args : PageArgs) : Except QErr Connection :=
  let spec := ordering.map parseToken
  match paginatorPage spec qs args with
  | .error e => .error e
  | .ok page =>
    let edges := page.items.map (fun n => { node := n, cursor := cursorFor spec n : Edge })
    .ok { edges := edges
          startCursor := (edges.head?).map (fun ed => ed.cursor)
          endCursor := (edges.getLast?).map (fun ed => ed.cursor)
          hasNextPage := page.hasNext
          hasPreviousPage := page.hasPrevious
          length := qs.length }

/-- PermissionedConnectionField.connection_resolver (src/connections.py
lines 43 to 84) composed with resolve_connection (lines 100 to 121):
order the base queryset by the mandatory orderBy argument, bind the
policy to the ordered queryset, keep its viewable subset for the request
user, and build the connection from the viewable rows. -/
def connection_resolver (p : Permission) (user : User) (base : QuerySet) (ordering : List String) (args : PageArgs) : Except QErr Connection :=
  match order_queryset base ordering with
  | .error e => .error e
  | .ok qs => connection_from_queryset (get_viewable p user qs.items) ordering args

/-- Python truthiness of an optional integer primary key: None and 0 are
falsy, every other value is truthy (the if obj.id test in
perform_mutate, src/mutations.py line 198). -/
def truthyId : Option Int → Bool
  | none => false
  | some n => n != 0

/-- Message of _raise_permission_error (src/mutations.py lines 21 to 22). -/
def mutationPermissionDeniedMessage : String :=
  "You do not have permission to perform this mutation"

/-- Errors raised (as Python exceptions) by the mutation pipeline. -/
inductive MutErr where
  | missingOrderingForEdge
  | entityNotFound (modelName : String) (idVal : Int)
  | invalidOperation
  | permissionDenied (msg : String)
deriving DecidableEq

/-- Which policy predicate a run of the pipeline consulted, in call
order (used to state that a predicate was never evaluated). -/
inductive PredCall where
  | canAdd
  | canChange
  | canDelete
deriving DecidableEq

/-- The mutation input dictionary: the serializer fields, the optional
lookup-field entry (id), and the optional edge_cursor_order_by entry. -/
structure MInput where
  fields : List (String × Int)
  idArg : Option Int
  edgeOrderBy : Option (List String)
deriving DecidableEq

/-- Python falsiness of input.get(EDGE_ORDER_BY_INPUT_FIELD): the key is
absent, or maps to an empty list. -/
def falsyOrderBy : Option (List String) → Bool
  | none => true
  | some l => l.isEmpty

/-- A mutation class configuration: the Meta options plus the external
serializer collaborator, modelled at its boundary by the validation
verdict, the field errors and the object built from validated data. -/
structure MutCfg where
  modelName : String
  opsCreate : Bool
  opsUpdate : Bool
  perm : Permission
  validates : MInput → Bool
  serErrors : MInput → List (String × List String)
  buildObj : MInput → Entity

/-- The serializer instance constructed by mutate_and_get_payload. -/
structure Serializer where
  inst : Option Entity
  built : Entity
  isValid : Bool
  errors : List (String × List String)

/-- The mutation payload (ok, errors, result, edge). -/
structure Payload where
  ok : Bool
  errors : List (String × List String)
  result : Option Entity
  edge : Option Edge
deriving DecidableEq

/-- Outcome of a mutation run: the returned payload or raised error, the
resulting database table, and the policy predicates consulted. -/
structure MutResult where
  outcome : Except MutErr Payload
  db : List Entity
  trace : List PredCall
deriving DecidableEq

/-- serializer.save() at the collaborator boundary: with a loaded
instance the validated fields are written onto that row; without one the
built object is inserted (primary-key assignment is the storage
engine's). -/
def serializerSave (ser : Serializer) (input : MInput) (db : List Entity) : Entity × List Entity :=
  match ser.inst with
  | some o =>
    let o2 : Entity := { o with fields := input.fields }
    (o2, db.map (fun x => if x.id == o.id then o2 else x))
  | none => (ser.built, db ++ [ser.built])

/-- PermissionedSerializerMutation._get_edge (src/mutations.py lines 171
to 177): the edge of the saved object against the full table under the
requested ordering. -/
def getEdge (ordering : List String) (obj : Entity) : Edge :=
  { node := obj, cursor := cursorFor (ordering.map parseToken) obj }

/-- PermissionedSerializerMutation._save_and_get_payload
(src/mutations.py lines 179 to 190): save, then compute the edge only
when the edge ordering input is truthy. -/
def save_and_get_payload (ser : Serializer) (input : MInput) (db : List Entity) : Payload × List Entity :=
  let (obj, db2) := serializerSave ser input db
  let edge := match input.edgeOrderBy with
    | some l => if l.isEmpty then none else some (getEdge l obj)
    | none => none
  ({ ok := true, errors := [], result := some obj, edge := edge }, db2)

/-- PermissionedSerializerMutation.perform_mutate (src/mutations.py
lines 192 to 207): take the loaded instance or build one, consult
can_change when its id is truthy and can_add otherwise, raise the
permission error on denial, else save and build the payload. -/
def perform_mutate (cfg : MutCfg) (user : User) (ser : Serializer) (input : MInput) (db : List Entity) : MutResult :=
  let obj := match ser.inst with | some o => o | none => ser.built
  let isUpd := truthyId obj.id
  let call := if isUpd then PredCall.canChange else PredCall.canAdd
  let hasPermission := if isUpd then cfg.perm.can_change user obj else cfg.perm.can_add user obj
  if hasPermission then
    let (payload, db2) := save_and_get_payload ser input db
    { outcome := .ok payload, db := db2, trace := [call] }
  else
    { outcome := .error (.permissionDenied mutationPermissionDeniedMessage), db := db, trace := [call] }

/-- PermissionedSerializerMutation.get_serializer_kwargs
(src/mutations.py lines 120 to 148): on the update path the target row
is loaded by the lookup field, a missing row raising the does-not-exist
error; the create path passes no instance; otherwise the invalid
operation error is raised. -/
def get_serializer_kwargs (cfg : MutCfg) (input : MInput) (db : List Entity) : Except MutErr (Option Entity) :=
  if cfg.opsUpdate && input.idArg.isSome then
    match input.idArg with
    | some i =>
      (match db.find? (fun o => o.id == some i) with
       | none => .error (.entityNotFound cfg.modelName i)
       | some o => .ok (some o))
    | none => .error .invalidOperation
  else if cfg.opsCreate then .ok none
  else .error .invalidOperation

/-- PermissionedSerializerMutation.mutate_and_get_payload
(src/mutations.py lines 150 to 168): reject an edge request without an
edge ordering before anything else, build the serializer kwargs (loading
the update target), then either run perform_mutate on valid input or
return the ok=false payload with the field errors. -/
def mutate_and_get_payload (cfg : MutCfg) (user : User) (requestsEdge : Bool) (input : MInput) (db : List Entity) : MutResult :=
  if requestsEdge && falsyOrderBy input.edgeOrderBy then
    { outcome := .error .missingOrderingForEdge, db := db, trace := [] }
  else
    match get_serializer_kwargs cfg input db with
    | .error e => { outcome := .error e, db := db, trace := [] }
    | .ok inst =>
      let ser : Serializer :=
        { inst := inst
          built := cfg.buildObj input
          isValid := cfg.validates input
          errors := cfg.serErrors input }
      if ser.isValid then perform_mutate cfg user ser input db
      else
        { outcome := .ok { ok := false, errors := ser.errors, result := none, edge := none }
          db := db
          trace := [] }

/-- Message of PermissionedType.get_node on a missing row
(src/types.py lines 67 to 69). The source string has no f prefix, so it
is the literal text, independent of the model. -/
def notFoundMessage (_modelName : String) : String :=
  "Requested \x7bcls._meta.model.__name__\x7d instance does not exist."

/-- Message of PermissionedType.ensure_user_can_view_instance on denial
(src/types.py lines 58 to 60); this one is an f-string, so it names the
model. -/
def permDeniedMessage (modelName : String) : String :=
  "You do not have permission to view this " ++ modelName ++ " instance."

/-- PermissionedType.ensure_user_can_view_instance (src/types.py lines
53 to 60): raise the denial error when can_view rejects. -/
def ensure_user_can_view_instance (modelName : String) (p : Permission) (user : User) (inst : Entity) : Except String Unit :=
  if p.can_view user inst then .ok () else .error (permDeniedMessage modelName)

/-- PermissionedType.get_node (src/types.py lines 62 to 71): look up by
primary key, raise the does-not-exist error when absent, then run the
can_view check and return the instance. -/
def get_node (modelName : String) (p : Permission) (db : List Entity) (user : User) (i : Int) : Except String Entity :=
  match db.find? (fun e => e.id == some i) with
  | none => .error (notFoundMessage modelName)
  | some inst =>
    match ensure_user_can_view_instance modelName p user inst with
    | .error msg => .error msg
    | .ok _ => .ok inst

/-- PermissionedTypeField.get_resolver (src/fields.py lines 14 to 23):
wrap the underlying resolver result; a truthy instance goes through the
can_view check (the returned Nat counts the checks performed), None is
returned unchecked. -/
def resolve_with_permission_check (modelName : String) (p : Permission) (user : User) (instResult : Option Entity) : Except String (Option Entity) × Nat :=
  match instResult with
  | some e =>
    (match ensure_user_can_view_instance modelName p user e with
     | .error msg => (.error msg, 1)
     | .ok _ => (.ok (some e), 1))
  | none => (.ok none, 0)

/-- PermissionedNode.to_global_id (src/node.py lines 35 to 37): the
database id is returned unchanged for every type name. -/
def to_global_id (_type : String) (i : Int) : Int := i

/-- PermissionedNode.from_global_id (src/node.py lines 31 to 33): raises
NotImplementedError for every input. -/
def from_global_id (_globalId : String) : Except String Int :=
  .error "from_global_id has yet to be implemented"

theorem mem_insertOrd (le : Entity → Entity → Bool) (x a : Entity) (l : List Entity) :
    a ∈ insertOrd le x l ↔ a = x ∨ a ∈ l := by
  induction l with
  | nil => simp [insertOrd]
  | cons b bs ih =>
    unfold insertOrd
    split
    · simp [List.mem_cons]
    · simp only [List.mem_cons, ih]
      tauto

theorem mem_sortBy (le : Entity → Entity → Bool) (a : Entity) (l : List Entity) :
    a ∈ sortBy le l ↔ a ∈ l := by
  induction l with
  | nil => simp [sortBy]
  | cons b bs ih => simp [sortBy, mem_insertOrd, ih]

theorem order_queryset_ok_mem {base : QuerySet} {ordering : List String} {qs : QuerySet}
    (h : order_queryset base ordering = .ok qs) :
    ∀ a, a ∈ qs.items ↔ a ∈ base.items := by
  unfold order_queryset at h
  split at h
  · exact absurd h (by simp)
  · injection h with h
    subst h
    intro a
    simp [mem_sortBy]

theorem boundWindow_subset (spec : List (String × Bool)) (items : List Entity) (args : PageArgs) :
    ∀ e ∈ boundWindow spec items args, e ∈ items := by
  obtain ⟨f, l, a, b⟩ := args
  intro e he
  cases a <;> cases b <;>
    simp only [boundWindow, List.mem_filter] at he <;>
    first
      | exact he
      | exact he.1
      | exact he.1.1

theorem paginatorPage_subset {spec : List (String × Bool)} {items : List Entity}
    {args : PageArgs} {page : Page}
    (h : paginatorPage spec items args = .ok page) :
    ∀ e ∈ page.items, e ∈ items := by
  intro e he
  unfold paginatorPage at h
  rcases hf : args.first with _ | n <;> rcases hl : args.last with _ | m <;>
    rw [hf, hl] at h <;> simp only [] at h
  · exact absurd h (by simp)
  · split at h
    · exact absurd h (by simp)
    · injection h with h
      subst h
      simp only [] at he
      rw [List.mem_reverse] at he
      have h1 := List.take_subset _ _ he
      have h2 := List.take_subset _ _ h1
      rw [List.mem_reverse] at h2
      exact boundWindow_subset spec items args e h2
  · split at h
    · exact absurd h (by simp)
    · injection h with h
      subst h
      simp only [] at he
      have h1 := List.take_subset _ _ he
      have h2 := List.take_subset _ _ h1
      exact boundWindow_subset spec items args e h2
  · exact absurd h (by simp)

theorem connection_from_queryset_edges {qs : List Entity} {ordering : List String}
    {args : PageArgs} {conn : Connection}
    (h : connection_from_queryset qs ordering args = .ok conn) :
    ∀ ed ∈ conn.edges, ed.node ∈ qs := by
  intro ed hed
  simp only [connection_from_queryset] at h
  split at h
  · exact absurd h (by simp)
  · rename_i page hpage
    injection h with h
    subst h
    simp only [List.mem_map] at hed
    obtain ⟨n, hn, hedn⟩ := hed
    have : ed.node = n := by rw [hedn.symm]
    rw [this]
    exact paginatorPage_subset hpage n hn

/-- Claim C1: every entity appearing in a returned Page satisfies the
policy viewable predicate and belongs to the base collection, and the
whole connection (edges, adjacency flags and count alike) is computed by
paginating a list consisting only of such entities: the viewable filter
is applied before pagination. -/
theorem listQuery_page_within_viewable_subset
    (p : Permission) (user : User) (base : QuerySet) (ordering : List String)
    (args : PageArgs) (conn : Connection)
    (h : connection_resolver p user base ordering args = .ok conn) :
    (∀ ed ∈ conn.edges, p.viewable_pred user ed.node = true ∧ ed.node ∈ base.items) ∧
    ∃ visible : List Entity,
      (∀ e ∈ visible, p.viewable_pred user e = true ∧ e ∈ base.items) ∧
      connection_from_queryset visible ordering args = .ok conn := by
  unfold connection_resolver at h
  split at h
  · exact absurd h (by simp)
  · rename_i qs hqs
    have hvis : ∀ e ∈ get_viewable p user qs.items,
        p.viewable_pred user e = true ∧ e ∈ base.items := by
      intro e he
      unfold get_viewable at he
      have := List.mem_filter.mp he
      exact ⟨this.2, (order_queryset_ok_mem hqs e).mp this.1⟩
    refine ⟨?_, get_viewable p user qs.items, hvis, h⟩
    intro ed hed
    exact hvis ed.node (connection_from_queryset_edges h ed hed)

/-- Concrete scenario for the C1 witness: a base collection of two
entities of which exactly one is viewable. -/
def exBaseA : QuerySet :=
  { items := [ { id := some 2, fields := [] }, { id := some 1, fields := [] } ]
    validFields := ["id", "name"] }

def exPermA : Permission :=
  { viewable_pred := fun _ e => e.get "id" == 1
    can_view := fun _ _ => true
    can_add := fun _ _ => true
    can_change := fun _ _ => true
    can_delete := fun _ _ => true }

def exArgsA : PageArgs := { first := some 10, last := none, after := none, before := none }

def exConnA : Connection :=
  { edges := [ { node := { id := some 1, fields := [] }, cursor := [1] } ]
    startCursor := some [1]
    endCursor := some [1]
    hasNextPage := false
    hasPreviousPage := false
    length := 1 }

theorem listQuery_page_within_viewable_subset_witness :
    exPermA.viewable_pred 0 { id := some 1, fields := [] } = true ∧
    ({ id := some 1, fields := [] } : Entity) ∈ exBaseA.items :=
  (listQuery_page_within_viewable_subset exPermA 0 exBaseA ["id"] exArgsA exConnA
    (by decide)).1
    { node := { id := some 1, fields := [] }, cursor := [1] } (by decide)

theorem findBadToken_some_of_bad {valid : List String} {l : List String} {t : String}
    (ht : t ∈ l) (hbad : valid.contains (stripToken t) = false) :
    ∃ u, u ∈ l ∧ valid.contains (stripToken u) = false ∧ findBadToken valid l = some u := by
  induction l with
  | nil => cases ht
  | cons a as ih =>
    by_cases ha : valid.contains (stripToken a) = true
    · have ht' : t ∈ as := by
        rcases List.mem_cons.mp ht with h | h
        · rw [h] at hbad
          rw [ha] at hbad
          cases hbad
        · exact h
      obtain ⟨u, hu1, hu2, hu3⟩ := ih ht'
      refine ⟨u, List.mem_cons_of_mem _ hu1, hu2, ?_⟩
      unfold findBadToken
      rw [if_pos ha]
      exact hu3
    · refine ⟨a, List.mem_cons_self _ _, by simpa using ha, ?_⟩
      unfold findBadToken
      rw [if_neg ha]

/-- Claim C5: an orderBy list containing a token whose field name is
outside the registry of orderable fields makes the request fail with the
invalid-ordering error naming an offending field, already at the
order_queryset step, before the permission filter or the paginator (and
hence any storage access) is reached. -/
theorem invalid_ordering_rejected
    (p : Permission) (user : User) (base : QuerySet) (ordering : List String)
    (args : PageArgs) (t : String)
    (ht : t ∈ ordering)
    (hbad : base.validFields.contains (stripToken t) = false) :
    ∃ u, u ∈ ordering ∧ base.validFields.contains (stripToken u) = false ∧
      order_queryset base ordering = .error (.invalidOrdering (stripToken u)) ∧
      connection_resolver p user base ordering args = .error (.invalidOrdering (stripToken u)) := by
  obtain ⟨u, hu1, hu2, hu3⟩ := findBadToken_some_of_bad ht hbad
  refine ⟨u, hu1, hu2, ?_, ?_⟩
  · unfold order_queryset
    rw [hu3]
  · unfold connection_resolver order_queryset
    rw [hu3]

theorem invalid_ordering_rejected_witness :
    ∃ u, u ∈ ["id", "bogus"] ∧ exBaseA.validFields.contains (stripToken u) = false ∧
      order_queryset exBaseA ["id", "bogus"] = .error (.invalidOrdering (stripToken u)) ∧
      connection_resolver exPermA 0 exBaseA ["id", "bogus"] exArgsA =
        .error (.invalidOrdering (stripToken u)) :=
  invalid_ordering_rejected exPermA 0 exBaseA ["id", "bogus"] exArgsA "bogus"
    (by decide) (by decide)

/-- Claim C6: a page request with neither or both of first and last
present always fails with the missing-page-bound error, and a Page is
only ever produced when exactly one of the two is present. -/
theorem page_bound_enforcement (spec : List (String × Bool)) (items : List Entity)
    (args : PageArgs) :
    ((args.first = none ∧ args.last = none) ∨ (args.first ≠ none ∧ args.last ≠ none) →
      paginatorPage spec items args = .error .missingPageBound) ∧
    (∀ page, paginatorPage spec items args = .ok page →
      (args.first ≠ none ∧ args.last = none) ∨ (args.first = none ∧ args.last ≠ none)) := by
  constructor
  · intro hcase
    unfold paginatorPage
    rcases hf : args.first with _ | n <;> rcases hl : args.last with _ | m
    · rfl
    · rcases hcase with ⟨h1, h2⟩ | ⟨h1, h2⟩
      · rw [hl] at h2
        cases h2
      · rw [hf] at h1
        exact absurd rfl h1
    · rcases hcase with ⟨h1, h2⟩ | ⟨h1, h2⟩
      · rw [hf] at h1
        cases h1
      · rw [hl] at h2
        exact absurd rfl h2
    · rfl
  · intro page hok
    unfold paginatorPage at hok
    rcases hf : args.first with _ | n <;> rcases hl : args.last with _ | m <;>
      rw [hf, hl] at hok <;> simp only [] at hok
    · exact absurd hok (by simp)
    · exact Or.inr ⟨rfl, by simp⟩
    · exact Or.inl ⟨by simp, rfl⟩
    · exact absurd hok (by simp)

theorem page_bound_enforcement_witness :
    paginatorPage [] [] { first := none, last := none, after := none, before := none } =
      .error .missingPageBound :=
  (page_bound_enforcement [] [] { first := none, last := none, after := none, before := none }).1
    (Or.inl ⟨rfl, rfl⟩)

/-- Claim C3: requesting the edge field while the input carries no edge
ordering fails with the missing-ordering error before the serializer is
even built: the table is unchanged and no policy predicate was
consulted. -/
theorem edge_request_without_ordering_rejected
    (cfg : MutCfg) (user : User) (input : MInput) (db : List Entity)
    (h : falsyOrderBy input.edgeOrderBy = true) :
    mutate_and_get_payload cfg user true input db =
      { outcome := .error .missingOrderingForEdge, db := db, trace := [] } := by
  unfold mutate_and_get_payload
  rw [h]
  simp

/-- Concrete mutation configuration used by witnesses: creation denied by
can_add, updates allowed by can_change. -/
def exCfgB : MutCfg :=
  { modelName := "Group"
    opsCreate := true
    opsUpdate := true
    perm :=
      { viewable_pred := fun _ _ => true
        can_view := fun _ _ => true
        can_add := fun _ _ => false
        can_change := fun _ _ => true
        can_delete := fun _ _ => true }
    validates := fun _ => true
    serErrors := fun _ => []
    buildObj := fun i => { id := none, fields := i.fields } }

def exInputB : MInput := { fields := [("name", 5)], idArg := none, edgeOrderBy := none }

theorem edge_request_without_ordering_rejected_witness :
    mutate_and_get_payload exCfgB 0 true exInputB [] =
      { outcome := .error .missingOrderingForEdge, db := [], trace := [] } :=
  edge_request_without_ordering_rejected exCfgB 0 exInputB [] rfl

/-- Claim C2, counterexample to the claim as stated: a create run denied
by can_add does not return any payload with ok set to false; the
pipeline raises the permission error instead (the outcome is an
exception, not a payload). -/
theorem create_denied_returns_no_payload :
    (mutate_and_get_payload exCfgB 0 false exInputB []).outcome =
      .error (.permissionDenied mutationPermissionDeniedMessage) ∧
    ¬ ∃ pl, (mutate_and_get_payload exCfgB 0 false exInputB []).outcome = .ok pl ∧
        pl.ok = false := by
  have h : (mutate_and_get_payload exCfgB 0 false exInputB []).outcome =
      .error (.permissionDenied mutationPermissionDeniedMessage) := by decide
  refine ⟨h, ?_⟩
  rintro ⟨pl, hpl, _⟩
  rw [h] at hpl
  cases hpl

/-- Claim C2 as amended: a create mutation whose built candidate is
denied by can_add terminates by raising the PermissionDenied-class
error (so no success payload exists) and the collection is unchanged;
no save is performed. -/
theorem create_denied_raises_and_preserves
    (cfg : MutCfg) (user : User) (input : MInput) (db : List Entity) (requestsEdge : Bool)
    (hguard : (requestsEdge && falsyOrderBy input.edgeOrderBy) = false)
    (hid : input.idArg = none)
    (hcreate : cfg.opsCreate = true)
    (hvalid : cfg.validates input = true)
    (hnewid : truthyId (cfg.buildObj input).id = false)
    (hdeny : cfg.perm.can_add user (cfg.buildObj input) = false) :
    mutate_and_get_payload cfg user requestsEdge input db =
      { outcome := .error (.permissionDenied mutationPermissionDeniedMessage)
        db := db
        trace := [PredCall.canAdd] } := by
  unfold mutate_and_get_payload get_serializer_kwargs perform_mutate
  rw [hguard, hid]
  simp [hcreate, hvalid, hnewid, hdeny]

theorem create_denied_raises_and_preserves_witness :
    mutate_and_get_payload exCfgB 0 false exInputB [] =
      { outcome := .error (.permissionDenied mutationPermissionDeniedMessage)
        db := []
        trace := [PredCall.canAdd] } :=
  create_denied_raises_and_preserves exCfgB 0 exInputB [] false rfl rfl rfl rfl rfl rfl

/-- Claim C7 as amended: on the update path a missing target fails with
the EntityNotFound-class error before any policy predicate is evaluated
and leaves the table unchanged; when the target is found and the input
is valid, authorization is decided on the loaded instance, by can_change
when its id is truthy and by can_add when the loaded id is 0, denial
raising the permission error. -/
theorem update_loads_target_before_authorization
    (cfg : MutCfg) (user : User) (input : MInput) (db : List Entity) (i : Int)
    (requestsEdge : Bool)
    (hguard : (requestsEdge && falsyOrderBy input.edgeOrderBy) = false)
    (hupd : cfg.opsUpdate = true)
    (hid : input.idArg = some i) :
    (db.find? (fun o => o.id == some i) = none →
      mutate_and_get_payload cfg user requestsEdge input db =
        { outcome := .error (.entityNotFound cfg.modelName i), db := db, trace := [] }) ∧
    (∀ o, db.find? (fun o => o.id == some i) = some o →
      cfg.validates input = true →
      (mutate_and_get_payload cfg user requestsEdge input db).trace =
        [if truthyId o.id then PredCall.canChange else PredCall.canAdd] ∧
      ((mutate_and_get_payload cfg user requestsEdge input db).outcome =
          .error (.permissionDenied mutationPermissionDeniedMessage) ↔
        (if truthyId o.id then cfg.perm.can_change user o else cfg.perm.can_add user o) = false)) := by
  constructor
  · intro hnone
    unfold mutate_and_get_payload get_serializer_kwargs
    rw [hguard, hid]
    simp only [Option.isSome_some, Bool.and_true, hupd, if_true, hnone]
    simp
  · intro o hfound hvalid
    unfold mutate_and_get_payload get_serializer_kwargs perform_mutate
    rw [hguard, hid]
    simp only [Option.isSome_some, Bool.and_true, hupd, if_true, hfound, hvalid]
    simp only [Bool.false_eq_true, if_false, if_true]
    by_cases ht : truthyId o.id = true
    · by_cases hc : cfg.perm.can_change user o = true
      · simp [ht, hc]
      · rw [Bool.not_eq_true] at hc
        simp [ht, hc]
    · rw [Bool.not_eq_true] at ht
      by_cases hc : cfg.perm.can_add user o = true
      · simp [ht, hc]
      · rw [Bool.not_eq_true] at hc
        simp [ht, hc]

def exInputU : MInput := { fields := [], idArg := some 5, edgeOrderBy := none }

theorem update_loads_target_before_authorization_witness :
    mutate_and_get_payload exCfgB 0 false exInputU [] =
      { outcome := .error (.entityNotFound "Group" 5), db := [], trace := [] } :=
  (update_loads_target_before_authorization exCfgB 0 exInputU [] 5 false rfl rfl rfl).1 rfl

/-- Mutation configuration exhibiting the zero-id misrouting: can_change
rejects everything, can_add accepts everything. -/
def exCfgZ : MutCfg :=
  { modelName := "Group"
    opsCreate := true
    opsUpdate := true
    perm :=
      { viewable_pred := fun _ _ => true
        can_view := fun _ _ => true
        can_add := fun _ _ => true
        can_change := fun _ _ => false
        can_delete := fun _ _ => true }
    validates := fun _ => true
    serErrors := fun _ => []
    buildObj := fun i => { id := none, fields := i.fields } }

def exInputZ : MInput := { fields := [], idArg := some 0, edgeOrderBy := none }

def exDbZ : List Entity := [ { id := some 0, fields := [] } ]

/-- Claim C7, counterexample to the claim as stated: the update target
with id 0 exists and is loaded, yet authorization is decided by can_add
(the trace shows it) and the mutation succeeds although can_change
rejects every request, so authorization is not decided by can_change on
the loaded instance. -/
theorem update_zero_id_misroutes_authorization :
    (mutate_and_get_payload exCfgZ 0 false exInputZ exDbZ).trace = [PredCall.canAdd] ∧
    (mutate_and_get_payload exCfgZ 0 false exInputZ exDbZ).outcome ≠
      .error (.permissionDenied mutationPermissionDeniedMessage) := by
  constructor
  · decide
  · decide

/-- Claim C8: perform_mutate consults can_change exactly when the id of
the serializer instance (the loaded one, or the freshly built object)
is truthy and can_add otherwise, and the run is denied exactly when the
chosen predicate rejects — so a creation whose built object carries a
preset nonzero id is authorized via can_change, never via can_add. -/
theorem authorization_predicate_chosen_by_id_truthiness
    (cfg : MutCfg) (user : User) (ser : Serializer) (input : MInput) (db : List Entity) :
    (perform_mutate cfg user ser input db).trace =
      [if truthyId (match ser.inst with | some o => o | none => ser.built).id
         then PredCall.canChange else PredCall.canAdd] ∧
    ((perform_mutate cfg user ser input db).outcome =
        .error (.permissionDenied mutationPermissionDeniedMessage) ↔
      (if truthyId (match ser.inst with | some o => o | none => ser.built).id
         then cfg.perm.can_change user (match ser.inst with | some o => o | none => ser.built)
         else cfg.perm.can_add user (match ser.inst with | some o => o | none => ser.built)) = false) := by
  unfold perform_mutate
  by_cases ht : truthyId (match ser.inst with | some o => o | none => ser.built).id = true
  · by_cases hc : cfg.perm.can_change user (match ser.inst with | some o => o | none => ser.built) = true
    · simp [ht, hc]
    · rw [Bool.not_eq_true] at hc
      simp [ht, hc]
  · rw [Bool.not_eq_true] at ht
    by_cases hc : cfg.perm.can_add user (match ser.inst with | some o => o | none => ser.built) = true
    · simp [ht, hc]
    · rw [Bool.not_eq_true] at hc
      simp [ht, hc]

/-- A serializer for a creation whose built object carries a preset
nonzero id. -/
def exSerP : Serializer :=
  { inst := none
    built := { id := some 7, fields := [] }
    isValid := true
    errors := [] }

theorem authorization_predicate_chosen_by_id_truthiness_witness :
    (perform_mutate exCfgZ 0 exSerP exInputB []).trace = [PredCall.canChange] :=
  (authorization_predicate_chosen_by_id_truthiness exCfgZ 0 exSerP exInputB []).1

/-- Whether a resolution outcome is a raised error. -/
def exceptIsError {α : Type} : Except String α → Bool
  | .error _ => true
  | .ok _ => false

/-- Claim C9: the wrapped resolver of a permissioned related-entity
field raises exactly when the underlying resolver produced an entity
that can_view rejects, and a None result is passed through with no
permission check performed (the counter stays 0). -/
theorem related_field_resolution_permission_check
    (modelName : String) (p : Permission) (user : User) (instResult : Option Entity) :
    ((exceptIsError (resolve_with_permission_check modelName p user instResult).1) = true ↔
      ∃ e, instResult = some e ∧ p.can_view user e = false) ∧
    (instResult = none →
      resolve_with_permission_check modelName p user instResult = (.ok none, 0)) := by
  constructor
  · cases instResult with
    | none => simp [resolve_with_permission_check, exceptIsError]
    | some e =>
      unfold resolve_with_permission_check ensure_user_can_view_instance
      by_cases hv : p.can_view user e = true
      · simp [hv, exceptIsError]
      · rw [Bool.not_eq_true] at hv
        simp [hv, exceptIsError]
  · rintro rfl
    rfl

/-- A policy whose can_view rejects everything. -/
def exPermDeny : Permission :=
  { viewable_pred := fun _ _ => false
    can_view := fun _ _ => false
    can_add := fun _ _ => false
    can_change := fun _ _ => false
    can_delete := fun _ _ => false }

def exEntE : Entity := { id := some 1, fields := [] }

theorem related_field_resolution_permission_check_witness :
    exceptIsError (resolve_with_permission_check "Group" exPermDeny 0 (some exEntE)).1 = true :=
  (related_field_resolution_permission_check "Group" exPermDeny 0 (some exEntE)).1.mpr
    ⟨exEntE, rfl, rfl⟩

/-- Claim C4: the node lookup behaves as claimed on the found branches
(denial names the entity type without leaking field values, an
authorized instance is returned), but the missing f prefix on the
does-not-exist message (src/types.py line 68) makes the not-found error
carry the literal placeholder text for every model, so it never names
the entity type. -/
theorem node_lookup_notfound_message_code_bug :
    get_node "Group" exPermA [] 0 999 = .error (notFoundMessage "Group") ∧
    (∀ m1 m2 : String, notFoundMessage m1 = notFoundMessage m2) ∧
    notFoundMessage "Group" ≠ "Requested Group instance does not exist." ∧
    get_node "Group" exPermDeny [exEntE] 0 1 = .error (permDeniedMessage "Group") ∧
    permDeniedMessage "Group" = "You do not have permission to view this Group instance." ∧
    get_node "Group" exPermA [exEntE] 0 1 = .ok exEntE := by
  refine ⟨rfl, fun _ _ => rfl, by decide, rfl, rfl, rfl⟩

/-- Claim C10: to_global_id is the identity on the identifier for every
type name, and from_global_id raises the not-implemented error on every
input. -/
theorem node_identifiers_are_raw_ids :
    (∀ t : String, ∀ i : Int, to_global_id t i = i) ∧
    (∀ g : String, from_global_id g = .error "from_global_id has yet to be implemented") :=
  ⟨fun _ _ => rfl, fun _ => rfl⟩

end GDP
